import Mathlib

/-!
Shallow embedding of `src/python/tri_mesh_viewer.py` (the MeshFEM notebook
mesh viewer): the `TextureMap` padding and UV rescaling, the
`replicateAttributesPerTriCorner` helper, the `MaterialLibrary` cache, the
buffer-attribute stash bookkeeping of `ViewerBase.setGeometry`, the
ghost-mesh lifecycle, and the camera accessors, together with theorems
settling the specification's claims about them.

Machine arrays become Lean lists, NumPy floats become `ℚ` (the claims under
scrutiny involve only exact arithmetic), Python object identities become
`Nat` tags drawn from explicit allocation counters, and fallible NumPy
indexing returns `Option`.
-/

namespace TriMeshViewer

/-! ## TextureMap (`tri_mesh_viewer.py` lines 12–36) -/

/-- A pixel of the RGBA texture image: its four channel values. -/
abbrev Pixel := List Nat

/-- The constant border pixel introduced by padding
(`np.pad(..., 'constant', constant_values=128)`). -/
def borderPix : Pixel := [128, 128, 128, 128]

/-- `tex.shape[0]`: the image height. -/
def texHeight (tex : List (List Pixel)) : Nat := tex.length

/-- `tex.shape[1]`: the image width (rows are assumed uniform). -/
def texWidth (tex : List (List Pixel)) : Nat := (tex.headD []).length

/-- `np.pad(tex, [(s - h, 0), (0, s - w), (0, 0)], 'constant', constant_values=128)`:
prepend `s - h` constant rows (axis 0 "before": the top) and append `s - w`
constant pixels to every row (axis 1 "after": the right); the channel axis
is untouched. -/
def padTex (tex : List (List Pixel)) (s : Nat) : List (List Pixel) :=
  let h := texHeight tex
  let w := texWidth tex
  List.replicate (s - h) (List.replicate s borderPix) ++
    tex.map (fun row => row ++ List.replicate (s - w) borderPix)

/-- Columnwise minimum of a UV list (`np.min(self.uv, axis=0)`). -/
def uvMin (uv : List (ℚ × ℚ)) : ℚ × ℚ :=
  match uv with
  | [] => (0, 0)
  | p :: rest => rest.foldl (fun a b => (min a.1 b.1, min a.2 b.2)) p

/-- Columnwise maximum of a UV list (`np.max(self.uv, axis=0)`). -/
def uvMax (uv : List (ℚ × ℚ)) : ℚ × ℚ :=
  match uv with
  | [] => (0, 0)
  | p :: rest => rest.foldl (fun a b => (max a.1 b.1, max a.2 b.2)) p

/-- The `normalizeUV` branch of `TextureMap.__init__`: translate the UVs so
their minimum is `(0, 0)`, then divide componentwise by the extent
(`self.uv -= np.min(...); self.uv /= dim`).  (NumPy would produce NaN on a
degenerate zero extent; `ℚ` division by zero yields `0` there.) -/
def normalizeUVList (uv : List (ℚ × ℚ)) : List (ℚ × ℚ) :=
  let m := uvMin uv
  let shifted := uv.map (fun p => (p.1 - m.1, p.2 - m.2))
  let dim := uvMax shifted
  shifted.map (fun p => (p.1 / dim.1, p.2 / dim.2))

/-- The padded square side: `s = max(w, h)`, rounded up to a power of two
when requested (`s = int(np.exp2(np.ceil(np.log2(s))))`, exact on the
integer range at hand). -/
def paddedSide (h w : Nat) (powerOfTwo : Bool) : Nat :=
  let s := max w h
  if powerOfTwo then 2 ^ Nat.clog 2 s else s

/-- The state a constructed `TextureMap` carries: the rescaled UV array and
the padded square image wrapped into the data texture (the texture's
filtering flags play no role in the claims). -/
structure TextureMap where
  uv : List (ℚ × ℚ)
  dataTex : List (List Pixel)

/-- `TextureMap.__init__(uv, tex, normalizeUV, powerOfTwo)`: optionally
normalize the UVs, pad the image to an `s × s` square on the top and right,
and rescale the UVs by `(w / s, h / s)` (`self.uv *= np.array([w / s, h / s])`). -/
def TextureMap.init (uv : List (ℚ × ℚ)) (tex : List (List Pixel))
    (normalizeUV : Bool := false) (powerOfTwo : Bool := false) : TextureMap :=
  let uv1 := if normalizeUV then normalizeUVList uv else uv
  let h := texHeight tex
  let w := texWidth tex
  let s := paddedSide h w powerOfTwo
  { uv := uv1.map (fun p => (p.1 * ((w : ℚ) / (s : ℚ)), p.2 * ((h : ℚ) / (s : ℚ)))),
    dataTex := padTex tex s }

/-! ## replicateAttributesPerTriCorner (lines 41–51) -/

/-- Fallible NumPy fancy indexing `l[idxs]`: gather the entries of `l` at
positions `idxs`, `none` standing for an IndexError. -/
def gather (l : List α) : List Nat → Option (List α)
  | [] => some []
  | i :: is =>
    match l[i]?, gather l is with
    | some x, some rest => some (x :: rest)
    | _, _ => none

/-- The attribute dictionary handed to `replicateAttributesPerTriCorner`:
the `index` array, the optional `color` array, and the remaining
(per-vertex) attributes such as `position`, `normal` and `uv`, tagged by
their dictionary key. -/
structure AttrDict (α : Type) where
  index : List Nat
  color : Option (List α)
  others : List (String × List α)

/-- Gather every non-color, non-index attribute by the index array
(the `attr[key] = attr[key][idxs]` arm of the loop). -/
def gatherAttrs (idxs : List Nat) : List (String × List α) → Option (List (String × List α))
  | [] => some []
  | kv :: rest =>
    match gather kv.2 idxs, gatherAttrs idxs rest with
    | some g, some grest => some ((kv.1, g) :: grest)
    | _, _ => none

/-- `replicateAttributesPerTriCorner(attr, perTriColor)`: every non-color
attribute is gathered by the index array (the `index` entry itself is also
gathered when the loop reaches it, the result being immediately
overwritten); `color` is replicated three times per entry
(`np.repeat(attr['color'], 3, axis=0)`) when `perTriColor`, else gathered
like the rest; finally `index` is replaced by
`np.arange(len(idxs))`.  `none` models a NumPy IndexError escaping the loop. -/
def replicateAttributesPerTriCorner (attr : AttrDict α) (perTriColor : Bool := true) :
    Option (AttrDict α) :=
  let idxs := attr.index
  let colorRes : Option (Option (List α)) :=
    match attr.color, perTriColor with
    | none, _ => some none
    | some c, true => some (some (c.flatMap (fun x => [x, x, x])))
    | some c, false => (gather c idxs).map some
  match gatherAttrs idxs attr.others, gather idxs idxs, colorRes with
  | some others, some _, some color =>
      some { index := List.range idxs.length, color := color, others := others }
  | _, _, _ => none

/-! ## MaterialLibrary (lines 59–122) -/

/-- A pythreejs material as the viewer observes it: the two descriptor
fields read back by `_extractMaterialDescriptors` (`vertexColors`, `map` —
the latter holding the bound texture's `model_id` when present), the ghost
styling (`transparent`, `opacity`), and an allocation tag `mid` standing
for the Python object identity. -/
structure Material where
  vertexColors : Bool
  map : Option String
  transparent : Bool
  opacity : ℚ
  mid : Nat
deriving DecidableEq

/-- Lookup in the `self.materials` dict (unique keys, insertion order). -/
def findMat (name : String) : List (String × Material) → Option Material
  | [] => none
  | p :: rest => if p.1 = name then some p.2 else findMat name rest

/-- `self.materials.pop(name)`'s effect on the dict. -/
def eraseMat (name : String) : List (String × Material) → List (String × Material)
  | [] => []
  | p :: rest => if p.1 = name then rest else p :: eraseMat name rest

/-- The material cache: the name-keyed dict and the allocation counter
fresh `mid`s are drawn from (`isLineMesh` only selects the pythreejs
constructor and common arguments, which the claims never inspect). -/
structure MaterialLibrary where
  materials : List (String × Material)
  nextId : Nat
deriving DecidableEq

/-- `MaterialLibrary._mangledMaterialName(isGhost, useVertexColors,
textureMapDataTex)`.  NOTE: the textured arm of the source's f-string
writes the literal `'solid'` instead of the computed `category`, so a ghost
textured material mangles to the same name as the solid one. -/
def _mangledMaterialName (isGhost useVertexColors : Bool)
    (textureMapDataTex : Option String) : String :=
  let category := if isGhost then "ghost" else "solid"
  match textureMapDataTex with
  | none => category ++ "_vc" ++ (if useVertexColors then "True" else "False")
  | some t => "solid_vc" ++ (if useVertexColors then "True" else "False") ++ "_tex" ++ t

/-- `MaterialLibrary._extractMaterialDescriptors(material)`. -/
def _extractMaterialDescriptors (m : Material) : Bool × Option String :=
  (m.vertexColors, m.map)

/-- `MaterialLibrary._mangledNameForMaterial(isGhost, material)`. -/
def _mangledNameForMaterial (isGhost : Bool) (m : Material) : String :=
  let d := _extractMaterialDescriptors m
  _mangledMaterialName isGhost d.1 d.2

/-- `MaterialLibrary.material(useVertexColors, textureMapDataTex)`: look up
the mangled solid name, allocating a fresh material carrying the
`_colorTexArgs` descriptors on a miss; returns the cached instance and the
updated library. -/
def MaterialLibrary.material (lib : MaterialLibrary) (useVertexColors : Bool)
    (textureMapDataTex : Option String := none) : Material × MaterialLibrary :=
  let name := _mangledMaterialName false useVertexColors textureMapDataTex
  match findMat name lib.materials with
  | some m => (m, lib)
  | none =>
      let m : Material :=
        { vertexColors := useVertexColors, map := textureMapDataTex,
          transparent := false, opacity := 1, mid := lib.nextId }
      (m, { lib with materials := lib.materials ++ [(name, m)], nextId := lib.nextId + 1 })

/-- `MaterialLibrary.ghostMaterial(origMaterial)`: look up the mangled ghost
name for the original material's descriptors, allocating a translucent
(`transparent=True, opacity=0.25`) variant on a miss. -/
def MaterialLibrary.ghostMaterial (lib : MaterialLibrary) (orig : Material) :
    Material × MaterialLibrary :=
  let name := _mangledNameForMaterial true orig
  match findMat name lib.materials with
  | some m => (m, lib)
  | none =>
      let d := _extractMaterialDescriptors orig
      let m : Material :=
        { vertexColors := d.1, map := d.2,
          transparent := true, opacity := 1 / 4, mid := lib.nextId }
      (m, { lib with materials := lib.materials ++ [(name, m)], nextId := lib.nextId + 1 })

/-- `MaterialLibrary.freeMaterial(material)`: mangle the material's name
with the ghost flag hardcoded to `False`; raise when that key is absent
(the dict untouched, since the raise precedes the pop), otherwise pop the
entry and close it — the second component returns the disposed material. -/
def MaterialLibrary.freeMaterial (lib : MaterialLibrary) (material : Material) :
    MaterialLibrary × Except String Material :=
  let name := _mangledNameForMaterial false material
  match findMat name lib.materials with
  | none => (lib, Except.error "Material to be freed is not found (is it a ghost?)")
  | some mat => ({ lib with materials := eraseMat name lib.materials }, Except.ok mat)

/-- Well-formedness of a material library, as maintained by its allocation
sites: cache keys are distinct (a Python dict), cached object identities
are distinct (each entry is built by a fresh constructor call), and every
cached identity is below the allocation counter. -/
def MaterialLibrary.WF (lib : MaterialLibrary) : Prop :=
  (lib.materials.map Prod.fst).Nodup ∧
  (lib.materials.map (fun p => p.2.mid)).Nodup ∧
  ∀ p ∈ lib.materials, p.2.mid < lib.nextId

instance (lib : MaterialLibrary) : Decidable lib.WF := by
  unfold MaterialLibrary.WF; infer_instance

/-! ## Buffer-attribute stash bookkeeping of `setGeometry` (lines 147–153,
255–305) -/

/-- The stashable attribute keys (`stashableKeys = ['index', 'color', 'uv']`). -/
inductive SKey
  | index
  | color
  | uv
deriving DecidableEq

/-- The stashable slice of an attribute dict: the `BufferAttribute` object
identity (a `Nat` allocation tag) held at each stashable key, if any. -/
structure AttrMap where
  index : Option Nat
  color : Option Nat
  uv : Option Nat
deriving DecidableEq

def AttrMap.get (a : AttrMap) : SKey → Option Nat
  | .index => a.index
  | .color => a.color
  | .uv => a.uv

def AttrMap.set (a : AttrMap) : SKey → Option Nat → AttrMap
  | .index, v => { a with index := v }
  | .color, v => { a with color := v }
  | .uv, v => { a with uv := v }

/-- The empty attribute dict (`attr = {}`). -/
def AttrMap.empty : AttrMap := ⟨none, none, none⟩

/-- The buffer bookkeeping state of a `ViewerBase`: the stashable
attributes of the current mesh's geometry (`none` models
`self.currMesh is None`), the `bufferAttributeStash`, and the number of
`BufferAttribute` allocations performed so far (fresh identities are drawn
from it). -/
structure BufState where
  live : Option AttrMap
  stash : AttrMap
  nextId : Nat
deriving DecidableEq

/-- The constructor state: no current mesh, empty stash, nothing allocated. -/
def BufState.start : BufState := { live := none, stash := AttrMap.empty, nextId := 0 }

/-- `allocateUpdateOrStashBufferAttribute(attr, key)` for one stashable
key; `needed` states whether `key in attrRaw`.  A needed key reuses the
stashed buffer when one exists (moving it out of the stash; the array is
then updated in place), updates an already-live attribute in place, and
allocates a fresh `BufferAttribute` otherwise; an unneeded live attribute
is moved into the stash.  Returns the updated `(attr, stash, nextId)`. -/
def allocateUpdateOrStashBufferAttribute (needed : Bool) (k : SKey)
    (attr stash : AttrMap) (nextId : Nat) : AttrMap × AttrMap × Nat :=
  if needed then
    match stash.get k with
    | some b => (attr.set k (some b), stash.set k none, nextId)
    | none =>
      match attr.get k with
      | some _ => (attr, stash, nextId)
      | none => (attr.set k (some nextId), stash, nextId + 1)
  else
    match attr.get k with
    | some b => (attr.set k none, stash.set k (some b), nextId)
    | none => (attr, stash, nextId)

/-- One iteration of `setGeometry`'s loop over stashable keys, threading
`(attr, stash, nextId)`. -/
def processKey (needed : SKey → Bool) (st : AttrMap × AttrMap × Nat) (k : SKey) :
    AttrMap × AttrMap × Nat :=
  allocateUpdateOrStashBufferAttribute (needed k) k st.1 st.2.1 st.2.2

/-- The buffer-attribute bookkeeping of one `setGeometry` call.  `needed k`
states whether `attrRaw` contains key `k` (in the source `index` is always
present, `color` iff a scalar field is displayed and `uv` iff a texture
map is supplied; the model allows any combination).  When
`preserveExisting`, the current mesh leaves for the ghost group together
with its attributes (`self.currMesh = None`).  With no current mesh, a
fresh mesh is built from `attr = {}`, the loop visiting the present keys
in `attrRaw`'s insertion order (`index`, `uv`, `color`); otherwise the
existing geometry is updated in place, the loop visiting every stashable
key in `stashableKeys` order (`index`, `color`, `uv`). -/
def setGeometryBuffers (preserveExisting : Bool) (needed : SKey → Bool)
    (s : BufState) : BufState :=
  let live0 := if preserveExisting then none else s.live
  match live0 with
  | none =>
      let st := ([SKey.index, SKey.uv, SKey.color].filter (fun k => needed k)).foldl
        (processKey needed) (AttrMap.empty, s.stash, s.nextId)
      { live := some st.1, stash := st.2.1, nextId := st.2.2 }
  | some attr =>
      let st := [SKey.index, SKey.color, SKey.uv].foldl
        (processKey needed) (attr, s.stash, s.nextId)
      { live := some st.1, stash := st.2.1, nextId := st.2.2 }

/-- Key-`j` exclusivity of an `(attr, stash)` pair: the key is held by at
most one of the two. -/
def ExclAt (attr stash : AttrMap) (j : SKey) : Prop :=
  attr.get j = none ∨ stash.get j = none

/-- The stash/live exclusivity invariant asserted at the top of
`allocateUpdateOrStashBufferAttribute`: each stashable key is held by at
most one of the current geometry's attributes and the stash. -/
def BufInv (s : BufState) : Prop :=
  ∀ j : SKey, ExclAt (s.live.getD AttrMap.empty) s.stash j

/-- Run a sequence of `setGeometry` calls, each given by its
`preserveExisting` flag and its `needed` key set, from the constructor
state. -/
def runSetGeometryCalls (calls : List (Bool × (SKey → Bool))) : BufState :=
  calls.foldl (fun s c => setGeometryBuffers c.1 c.2 s) BufState.start

/-- `attrRaw` keys for a frame showing a per-vertex scalar field and no
texture: `index` and `color`. -/
def scalarOnNeeded : SKey → Bool
  | .index => true
  | .color => true
  | .uv => false

/-- `attrRaw` keys for a plain frame (no scalar field, no texture):
`index` only. -/
def scalarOffNeeded : SKey → Bool
  | .index => true
  | .color => false
  | .uv => false

/-- One on/off toggle of the scalar field: a `setGeometry` call needing
`color` followed by one not needing it (both non-preserving). -/
def toggleCycle (s : BufState) : BufState :=
  setGeometryBuffers false scalarOffNeeded (setGeometryBuffers false scalarOnNeeded s)

/-- The buffer state right after the viewer's constructor (its initial
`update`/`setGeometry` with no scalar field and no texture). -/
def initialViewerBufState : BufState := setGeometryBuffers false scalarOffNeeded BufState.start

/-! ## Ghost-mesh lifecycle (`setGeometry` lines 229–248, `__cleanMeshes`
lines 419–432) -/

/-- A mesh in the scene graph: its object identity and the buffer
identities of its geometry's attributes (`mesh.geometry.attributes`). -/
structure GMesh where
  mid : Nat
  geomAttrs : List Nat
deriving DecidableEq

/-- Resource-release events emitted by `__cleanMeshes`. -/
inductive Ev
  | disposeGeom (mid : Nat)
  | closeBuf (bid : Nat)
  | closeGeom (mid : Nat)
  | closeMesh (mid : Nat)
deriving DecidableEq

/-- The body of `__cleanMeshes`'s loop for one mesh: dispose the geometry,
close each attribute buffer and close the geometry — skipped when the mesh
is the wireframe or points mesh, whose geometry is shared with the current
mesh — then close the mesh itself. -/
def meshCleanupEvents (wireframeMesh pointsMesh : Option Nat) (m : GMesh) : List Ev :=
  (if wireframeMesh ≠ some m.mid ∧ pointsMesh ≠ some m.mid then
    [Ev.disposeGeom m.mid] ++ m.geomAttrs.map Ev.closeBuf ++ [Ev.closeGeom m.mid]
  else []) ++ [Ev.closeMesh m.mid]

/-- `__cleanMeshes(meshGroup)`: remove every mesh of the group and emit its
cleanup events, in group order. -/
def cleanMeshesEvents (wireframeMesh pointsMesh : Option Nat) (group : List GMesh) :
    List Ev :=
  group.flatMap (meshCleanupEvents wireframeMesh pointsMesh)

/-- The slice of a `ViewerBase`'s state that the ghost lifecycle reads and
writes: the current mesh, the vector-field glyph mesh and whether it sits
in `self.meshes.children`, the wireframe/points mesh identities, the ghost
group's contents, and the log of release events. -/
structure GhostView where
  currMesh : Option GMesh
  vectorFieldMesh : Option GMesh
  vfInMeshes : Bool
  wireframeMesh : Option Nat
  pointsMesh : Option Nat
  ghostMeshes : List GMesh
  events : List Ev
deriving DecidableEq

/-- The ghost phase of `setGeometry` (lines 229–248): when
`preserveExisting` and a current mesh exists, the mesh swaps to the ghost
material and moves from the mesh group to the ghost group, and a displayed
vector-field mesh gets translucent arrow colors and moves with it;
otherwise the ghost group is purged through `__cleanMeshes`. -/
def ghostPhase (preserveExisting : Bool) (s : GhostView) : GhostView :=
  match s.currMesh, preserveExisting with
  | some m, true =>
      let s1 := { s with currMesh := none, ghostMeshes := s.ghostMeshes ++ [m] }
      match s1.vectorFieldMesh, s1.vfInMeshes with
      | some vm, true =>
          { s1 with vectorFieldMesh := none, vfInMeshes := false,
                    ghostMeshes := s1.ghostMeshes ++ [vm] }
      | _, _ => s1
  | _, _ =>
      { s with
          events := s.events ++ cleanMeshesEvents s.wireframeMesh s.pointsMesh s.ghostMeshes,
          ghostMeshes := [] }

/-- One `setGeometry` call as the ghost lifecycle sees it: the ghost phase,
then the current mesh is freshly built (`newMesh`) when none remains or
updated in place otherwise, and the vector-field mesh is rebuilt (`newVF`)
and attached, or removed from display when no vector field is supplied. -/
def setGeometryGhost (preserveExisting : Bool) (newMesh : GMesh)
    (newVF : Option GMesh) (s : GhostView) : GhostView :=
  let s1 := ghostPhase preserveExisting s
  let s2 :=
    match s1.currMesh with
    | none => { s1 with currMesh := some newMesh }
    | some _ => s1
  match newVF with
  | some vm => { s2 with vectorFieldMesh := some vm, vfInMeshes := true }
  | none => { s2 with vfInMeshes := false }

/-- The ghost meshes a `preserveExisting` update accumulates on top of the
already-present ones: the current mesh, plus the vector-field mesh when it
is displayed. -/
def ghostedMeshes (s : GhostView) (m : GMesh) : List GMesh :=
  match s.vectorFieldMesh, s.vfInMeshes with
  | some vm, true => [m, vm]
  | _, _ => [m]

/-! ## Camera accessors (lines 397–402) -/

structure Vec3 where
  x : ℚ
  y : ℚ
  z : ℚ
deriving DecidableEq

/-- The camera state the accessors manipulate: `position`, `up`, and the
orientation that `lookAt` recomputes (three.js stores a quaternion; the
model records the viewing direction, the relevant fact being that `lookAt`
leaves `position` and `up` alone). -/
structure PerspectiveCamera where
  position : Vec3
  up : Vec3
  lookDir : Vec3
deriving DecidableEq

/-- `cam.lookAt(t)`: re-orient the camera toward `t`. -/
def PerspectiveCamera.lookAt (c : PerspectiveCamera) (t : Vec3) : PerspectiveCamera :=
  { c with lookDir := ⟨t.x - c.position.x, t.y - c.position.y, t.z - c.position.z⟩ }

structure TrackballControls where
  target : Vec3
deriving DecidableEq

/-- The camera-facing slice of a viewer: `self.cam` and `self.controls`. -/
structure CameraRig where
  cam : PerspectiveCamera
  controls : TrackballControls
deriving DecidableEq

/-- `ViewerBase.getCameraParams`. -/
def getCameraParams (v : CameraRig) : Vec3 × Vec3 × Vec3 :=
  (v.cam.position, v.cam.up, v.controls.target)

/-- `ViewerBase.setCameraParams(params)`: assign
`self.cam.position, self.cam.up, self.controls.target = params`, then
`self.cam.lookAt(self.controls.target)`. -/
def setCameraParams (v : CameraRig) (params : Vec3 × Vec3 × Vec3) : CameraRig :=
  let cam1 := { v.cam with position := params.1, up := params.2.1 }
  let controls1 : TrackballControls := { target := params.2.2 }
  { cam := cam1.lookAt controls1.target, controls := controls1 }

/-! ## Association-list lemmas for the material cache -/

theorem findMat_append_of_found {l : List (String × Material)} {k : String} {m : Material}
    (l2 : List (String × Material)) (h : findMat k l = some m) :
    findMat k (l ++ l2) = some m := by
  induction l with
  | nil => simp [findMat] at h
  | cons p rest ih =>
    simp only [findMat, List.cons_append] at h ⊢
    split at h
    · simp_all
    · simp only [*, if_false]
      exact ih h

theorem findMat_append_self {l : List (String × Material)} {k : String}
    (m : Material) (h : findMat k l = none) :
    findMat k (l ++ [(k, m)]) = some m := by
  induction l with
  | nil => simp [findMat]
  | cons p rest ih =>
    simp only [findMat, List.cons_append] at h ⊢
    split at h
    · exact absurd h (by simp)
    · simp only [*, if_false]
      exact ih h

theorem findMat_append_ne {l : List (String × Material)} {k k' : String}
    (m : Material) (h : k' ≠ k) :
    findMat k (l ++ [(k', m)]) = findMat k l := by
  induction l with
  | nil => simp [findMat, h]
  | cons p rest ih =>
    simp only [findMat, List.cons_append]
    split
    · rfl
    · exact ih

theorem findMat_mem {l : List (String × Material)} {k : String} {m : Material}
    (h : findMat k l = some m) : (k, m) ∈ l := by
  induction l with
  | nil => simp [findMat] at h
  | cons p rest ih =>
    simp only [findMat] at h
    split at h
    next hpk =>
      obtain ⟨p1, p2⟩ := p
      simp only at hpk
      injection h with h2
      subst hpk
      subst h2
      exact List.mem_cons_self _ _
    next => exact List.mem_cons_of_mem _ (ih h)

theorem findMat_none_not_key {l : List (String × Material)} {k : String}
    (h : findMat k l = none) : ∀ p ∈ l, p.1 ≠ k := by
  induction l with
  | nil => simp
  | cons p rest ih =>
    simp only [findMat] at h
    split at h
    · simp at h
    · intro q hq
      rcases List.mem_cons.mp hq with rfl | hq'
      · assumption
      · exact ih h q hq'

theorem findMat_eraseMat_ne {l : List (String × Material)} {k k' : String}
    (h : k ≠ k') : findMat k (eraseMat k' l) = findMat k l := by
  induction l with
  | nil => rfl
  | cons p rest ih =>
    simp only [eraseMat]
    split
    next hpk' =>
      simp only [findMat]
      rw [if_neg (fun hk => h (hk.symm.trans hpk'))]
    next =>
      simp only [findMat]
      split
      · rfl
      · exact ih

/-- Entries of a cache whose identities are distinct differ at distinct keys. -/
theorem findMat_distinct_keys_distinct_values {l : List (String × Material)}
    {k1 k2 : String} {m1 m2 : Material}
    (hnd : (l.map (fun p => p.2.mid)).Nodup)
    (h1 : findMat k1 l = some m1) (h2 : findMat k2 l = some m2) (hk : k1 ≠ k2) :
    m1 ≠ m2 := by
  intro hm
  have mem1 : ((k1, m1) : String × Material) ∈ l := findMat_mem h1
  have mem2 : ((k2, m2) : String × Material) ∈ l := findMat_mem h2
  have := List.inj_on_of_nodup_map hnd mem1 mem2 (by simp [hm])
  exact hk (congrArg Prod.fst this)

/-- `material` always leaves its own key bound to the returned instance. -/
theorem material_found (lib : MaterialLibrary) (vc : Bool) (t : Option String) :
    findMat (_mangledMaterialName false vc t) (lib.material vc t).2.materials =
      some (lib.material vc t).1 := by
  cases hf : findMat (_mangledMaterialName false vc t) lib.materials with
  | some m => simp [MaterialLibrary.material, hf]
  | none =>
    simp only [MaterialLibrary.material, hf]
    exact findMat_append_self _ hf

/-- `material` preserves existing cache bindings. -/
theorem material_preserves (lib : MaterialLibrary) (vc : Bool) (t : Option String)
    {k : String} {m : Material} (h : findMat k lib.materials = some m) :
    findMat k (lib.material vc t).2.materials = some m := by
  cases hf : findMat (_mangledMaterialName false vc t) lib.materials with
  | some m2 => simpa [MaterialLibrary.material, hf] using h
  | none =>
    have hne : _mangledMaterialName false vc t ≠ k := by
      intro hk
      rw [hk] at hf
      rw [hf] at h
      exact Option.noConfusion h
    simp only [MaterialLibrary.material, hf]
    exact (findMat_append_ne _ hne).trans h

/-- `material` preserves the cache's well-formedness. -/
theorem material_WF (lib : MaterialLibrary) (vc : Bool) (t : Option String)
    (hwf : lib.WF) : (lib.material vc t).2.WF := by
  obtain ⟨hkeys, hmids, hbound⟩ := hwf
  cases hf : findMat (_mangledMaterialName false vc t) lib.materials with
  | some m =>
    simp only [MaterialLibrary.WF, MaterialLibrary.material, hf]
    exact ⟨hkeys, hmids, hbound⟩
  | none =>
    simp only [MaterialLibrary.WF, MaterialLibrary.material, hf]
    refine ⟨?_, ?_, ?_⟩
    · simp only [List.map_append, List.map_cons, List.map_nil]
      rw [List.nodup_append]
      refine ⟨hkeys, List.nodup_singleton _, ?_⟩
      intro a ha hb
      simp only [List.mem_singleton] at hb
      subst hb
      obtain ⟨p, hp, hp1⟩ := List.mem_map.mp ha
      exact findMat_none_not_key hf p hp hp1
    · simp only [List.map_append, List.map_cons, List.map_nil]
      rw [List.nodup_append]
      refine ⟨hmids, List.nodup_singleton _, ?_⟩
      intro a ha hb
      simp only [List.mem_singleton] at hb
      subst hb
      obtain ⟨p, hp, hp1⟩ := List.mem_map.mp ha
      exact absurd hp1 (Nat.ne_of_lt (hbound p hp))
    · intro p hp
      rcases List.mem_append.mp hp with hp' | hp'
      · exact Nat.lt_succ_of_lt (hbound p hp')
      · simp only [List.mem_singleton] at hp'
        subst hp'
        exact Nat.lt_succ_self _

/-- Mid-bound for every cached entry, extracted from `WF`. -/
theorem WF_mid_lt {lib : MaterialLibrary} (hwf : lib.WF) {k : String} {m : Material}
    (h : findMat k lib.materials = some m) : m.mid < lib.nextId :=
  hwf.2.2 _ (findMat_mem h)

/-- Solid mangled names are injective in the texture identity. -/
theorem mangled_solid_tex_injective (vc : Bool) {t1 t2 : Option String} (h : t1 ≠ t2) :
    _mangledMaterialName false vc t1 ≠ _mangledMaterialName false vc t2 := by
  cases t1 with
  | none =>
    cases t2 with
    | none => exact absurd rfl h
    | some t =>
      intro he
      have hl := congrArg String.length he
      cases vc <;>
        simp [_mangledMaterialName, String.length_append,
          show ("solid" : String).length = 5 from rfl,
          show ("_vc" : String).length = 3 from rfl,
          show ("True" : String).length = 4 from rfl,
          show ("False" : String).length = 5 from rfl,
          show ("solid_vc" : String).length = 8 from rfl,
          show ("solid_vcTrue" : String).length = 12 from rfl,
          show ("solid_vcFalse" : String).length = 13 from rfl,
          show ("solid_vcTrue_tex" : String).length = 16 from rfl,
          show ("solid_vcFalse_tex" : String).length = 17 from rfl,
          show ("_tex" : String).length = 4 from rfl] at hl <;>
        omega
  | some t =>
    cases t2 with
    | none =>
      intro he
      have hl := congrArg String.length he
      cases vc <;>
        simp [_mangledMaterialName, String.length_append,
          show ("solid" : String).length = 5 from rfl,
          show ("_vc" : String).length = 3 from rfl,
          show ("True" : String).length = 4 from rfl,
          show ("False" : String).length = 5 from rfl,
          show ("solid_vc" : String).length = 8 from rfl,
          show ("solid_vcTrue" : String).length = 12 from rfl,
          show ("solid_vcFalse" : String).length = 13 from rfl,
          show ("solid_vcTrue_tex" : String).length = 16 from rfl,
          show ("solid_vcFalse_tex" : String).length = 17 from rfl,
          show ("_tex" : String).length = 4 from rfl] at hl <;>
        omega
    | some t' =>
      intro he
      apply h
      simp only [_mangledMaterialName] at he
      have hd := congrArg String.data he
      simp only [String.data_append] at hd
      have := List.append_cancel_left hd
      exact congrArg Option.some (String.ext this)

/-! ## Claim theorems: material cache -/

/-- C1 (code bug evidence): the mangled material-cache key does NOT
distinguish ghost from solid for textured materials — for every vertex-color
flag and every texture, the ghost key and the solid key coincide, because
the textured arm of the f-string hardcodes the literal `'solid'` instead of
the computed `category`. -/
theorem mangledName_ghost_textured_collides (vc : Bool) (t : String) :
    _mangledMaterialName true vc (some t) = _mangledMaterialName false vc (some t) := rfl

/-- C5: on a well-formed cache, `material` called twice with identical
`(useVertexColors, texture)` descriptors returns the identical cached
instance with no change to the library (no new allocation), while a second
call whose texture identity differs returns a distinct instance. -/
theorem material_cache_identity (lib : MaterialLibrary) (vc : Bool)
    (t1 t2 : Option String) (hwf : lib.WF) :
    ((lib.material vc t1).2.material vc t1).1 = (lib.material vc t1).1 ∧
    ((lib.material vc t1).2.material vc t1).2 = (lib.material vc t1).2 ∧
    (t1 ≠ t2 → ((lib.material vc t1).2.material vc t2).1 ≠ (lib.material vc t1).1) := by
  have hfound := material_found lib vc t1
  have hwf1 : (lib.material vc t1).2.WF := material_WF lib vc t1 hwf
  set r := lib.material vc t1 with hr
  refine ⟨?_, ?_, ?_⟩
  · simp only [MaterialLibrary.material, hfound]
  · simp only [MaterialLibrary.material, hfound]
  · intro hne
    have hkey : _mangledMaterialName false vc t2 ≠ _mangledMaterialName false vc t1 :=
      (mangled_solid_tex_injective vc hne).symm
    cases hf : findMat (_mangledMaterialName false vc t2) r.2.materials with
    | some m2 =>
      simp only [MaterialLibrary.material, hf]
      exact findMat_distinct_keys_distinct_values hwf1.2.1 hf hfound hkey
    | none =>
      simp only [MaterialLibrary.material, hf]
      intro hcontra
      have hmid := WF_mid_lt hwf1 hfound
      rw [← hcontra] at hmid
      exact Nat.lt_irrefl _ hmid

/-- Witness for C5 at the empty library: the second identical request
returns the cached instance, and a request with a different texture
identity returns a distinct one. -/
theorem material_cache_identity_witness :
    (MaterialLibrary.mk [] 0).WF ∧
    (((MaterialLibrary.mk [] 0).material true none).2.material true none).1 =
      ((MaterialLibrary.mk [] 0).material true none).1 ∧
    (((MaterialLibrary.mk [] 0).material true none).2.material true (some "IPY_MODEL_a")).1 ≠
      ((MaterialLibrary.mk [] 0).material true none).1 := by
  have hwf : (MaterialLibrary.mk [] 0).WF := by
    refine ⟨?_, ?_, ?_⟩ <;> simp [MaterialLibrary.WF]
  have h := material_cache_identity (MaterialLibrary.mk [] 0) true none
    (some "IPY_MODEL_a") hwf
  exact ⟨hwf, h.1, h.2.2 (by simp)⟩

/-- C6: `freeMaterial` on a material whose (ghost-flag-`False`) mangled key
is absent raises the not-found error and leaves the cache mapping exactly
as it was. -/
theorem freeMaterial_absent_raises (lib : MaterialLibrary) (m : Material)
    (h : findMat (_mangledNameForMaterial false m) lib.materials = none) :
    lib.freeMaterial m =
      (lib, Except.error "Material to be freed is not found (is it a ghost?)") := by
  simp only [MaterialLibrary.freeMaterial, h]

/-- Witness for C6: freeing from the empty cache fails and changes nothing. -/
theorem freeMaterial_absent_raises_witness :
    findMat (_mangledNameForMaterial false ⟨false, none, false, 1, 0⟩)
      (MaterialLibrary.mk [] 7).materials = none ∧
    (MaterialLibrary.mk [] 7).freeMaterial ⟨false, none, false, 1, 0⟩ =
      (MaterialLibrary.mk [] 7,
       Except.error "Material to be freed is not found (is it a ghost?)") :=
  ⟨rfl, freeMaterial_absent_raises (MaterialLibrary.mk [] 7) ⟨false, none, false, 1, 0⟩ rfl⟩

/-- C10: `freeMaterial` on an untextured ghost material computes the key
with the ghost flag forced to `False`; when the solid material with the
same descriptors is cached, that solid entry is removed and disposed
(distinct from the ghost itself when identities are distinct and the ghost
is cached under its ghost key), the ghost-key binding staying untouched;
only when no such solid entry exists does the call raise the not-found
error. -/
theorem freeMaterial_ghost_pops_solid (lib : MaterialLibrary) (g : Material)
    (huntex : g.map = none) :
    (∀ mat, findMat (_mangledMaterialName false g.vertexColors none) lib.materials = some mat →
      lib.freeMaterial g =
        ({ lib with
            materials := eraseMat (_mangledMaterialName false g.vertexColors none) lib.materials },
         Except.ok mat) ∧
      findMat (_mangledMaterialName true g.vertexColors none) (lib.freeMaterial g).1.materials =
        findMat (_mangledMaterialName true g.vertexColors none) lib.materials ∧
      ((lib.materials.map (fun p => p.2.mid)).Nodup →
        findMat (_mangledMaterialName true g.vertexColors none) lib.materials = some g →
        mat ≠ g)) ∧
    (findMat (_mangledMaterialName false g.vertexColors none) lib.materials = none →
      lib.freeMaterial g =
        (lib, Except.error "Material to be freed is not found (is it a ghost?)")) := by
  have hname : _mangledNameForMaterial false g =
      _mangledMaterialName false g.vertexColors none := by
    simp [_mangledNameForMaterial, _extractMaterialDescriptors, huntex]
  have hkeys : _mangledMaterialName true g.vertexColors none ≠
      _mangledMaterialName false g.vertexColors none := by
    cases hv : g.vertexColors <;> simp [_mangledMaterialName]
  constructor
  · intro mat hmat
    have hfree : lib.freeMaterial g =
        ({ lib with
            materials := eraseMat (_mangledMaterialName false g.vertexColors none) lib.materials },
         Except.ok mat) := by
      simp only [MaterialLibrary.freeMaterial, hname, hmat]
    refine ⟨hfree, ?_, ?_⟩
    · rw [hfree]
      exact findMat_eraseMat_ne hkeys
    · intro hnd hghost
      exact findMat_distinct_keys_distinct_values hnd hmat hghost
        (fun hk => hkeys hk.symm)
  · intro habs
    simp only [MaterialLibrary.freeMaterial, hname, habs]

/-- Witness for C10 on a two-entry cache holding the solid and its ghost:
freeing the ghost pops the solid entry. -/
theorem freeMaterial_ghost_pops_solid_witness :
    (⟨true, none, true, 1 / 4, 1⟩ : Material).map = none ∧
    findMat (_mangledMaterialName false true none)
      (MaterialLibrary.mk
        [("solid_vcTrue", ⟨true, none, false, 1, 0⟩),
         ("ghost_vcTrue", ⟨true, none, true, 1 / 4, 1⟩)] 2).materials =
      some ⟨true, none, false, 1, 0⟩ ∧
    (MaterialLibrary.mk
        [("solid_vcTrue", ⟨true, none, false, 1, 0⟩),
         ("ghost_vcTrue", ⟨true, none, true, 1 / 4, 1⟩)] 2).freeMaterial
        ⟨true, none, true, 1 / 4, 1⟩ =
      (MaterialLibrary.mk [("ghost_vcTrue", ⟨true, none, true, 1 / 4, 1⟩)] 2,
       Except.ok ⟨true, none, false, 1, 0⟩) ∧
    (⟨true, none, false, 1, 0⟩ : Material) ≠ ⟨true, none, true, 1 / 4, 1⟩ := by
  have h := freeMaterial_ghost_pops_solid
    (MaterialLibrary.mk
      [("solid_vcTrue", ⟨true, none, false, 1, 0⟩),
       ("ghost_vcTrue", ⟨true, none, true, 1 / 4, 1⟩)] 2)
    ⟨true, none, true, 1 / 4, 1⟩ rfl
  have hmat : findMat (_mangledMaterialName false true none)
      (MaterialLibrary.mk
        [("solid_vcTrue", ⟨true, none, false, 1, 0⟩),
         ("ghost_vcTrue", ⟨true, none, true, 1 / 4, 1⟩)] 2).materials =
      some ⟨true, none, false, 1, 0⟩ := rfl
  have h1 := h.1 _ hmat
  refine ⟨rfl, hmat, ?_, ?_⟩
  · rw [h1.1]
    rfl
  · exact h1.2.2 (by decide) rfl

/-! ## Claim theorem: camera round-trip -/

/-- C9: `setCameraParams` followed by `getCameraParams` returns the same
(position, up, target) triple — `lookAt` only re-orients the camera. -/
theorem camera_params_roundtrip (v : CameraRig) (p : Vec3 × Vec3 × Vec3) :
    getCameraParams (setCameraParams v p) = p := by
  obtain ⟨a, b, c⟩ := p
  rfl


/-! ## Buffer-stash lemmas -/

theorem AttrMap.get_set_self (a : AttrMap) (k : SKey) (v : Option Nat) :
    (a.set k v).get k = v := by
  cases k <;> rfl

theorem AttrMap.get_set_ne (a : AttrMap) {k j : SKey} (v : Option Nat) (h : j ≠ k) :
    (a.set k v).get j = a.get j := by
  cases k <;> cases j <;> simp_all [AttrMap.set, AttrMap.get]

/-- One `allocateUpdateOrStashBufferAttribute` step touches only its own
key. -/
theorem allocOrStash_get_ne (needed : Bool) (k : SKey) (attr stash : AttrMap)
    (nid : Nat) {j : SKey} (hj : j ≠ k) :
    (allocateUpdateOrStashBufferAttribute needed k attr stash nid).1.get j = attr.get j ∧
    (allocateUpdateOrStashBufferAttribute needed k attr stash nid).2.1.get j = stash.get j := by
  unfold allocateUpdateOrStashBufferAttribute
  cases needed with
  | true =>
    rw [if_pos rfl]
    cases stash.get k with
    | some b => exact ⟨AttrMap.get_set_ne _ _ hj, AttrMap.get_set_ne _ _ hj⟩
    | none =>
      cases attr.get k with
      | some b => exact ⟨rfl, rfl⟩
      | none => exact ⟨AttrMap.get_set_ne _ _ hj, rfl⟩
  | false =>
    rw [if_neg Bool.false_ne_true]
    cases attr.get k with
    | some b => exact ⟨AttrMap.get_set_ne _ _ hj, AttrMap.get_set_ne _ _ hj⟩
    | none => exact ⟨rfl, rfl⟩

/-- One `allocateUpdateOrStashBufferAttribute` step preserves exclusivity
at every key. -/
theorem allocOrStash_excl (needed : Bool) (k : SKey) (attr stash : AttrMap)
    (nid : Nat) (h : ∀ j, ExclAt attr stash j) :
    ∀ j, ExclAt (allocateUpdateOrStashBufferAttribute needed k attr stash nid).1
      (allocateUpdateOrStashBufferAttribute needed k attr stash nid).2.1 j := by
  intro j
  by_cases hj : j = k
  · subst hj
    unfold allocateUpdateOrStashBufferAttribute
    cases needed with
    | true =>
      rw [if_pos rfl]
      cases hs : stash.get j with
      | some b => exact Or.inr (AttrMap.get_set_self _ _ _)
      | none =>
        cases ha : attr.get j with
        | some b => exact h j
        | none => exact Or.inr hs
    | false =>
      rw [if_neg Bool.false_ne_true]
      cases ha : attr.get j with
      | some b => exact Or.inl (AttrMap.get_set_self _ _ _)
      | none => exact Or.inl ha
  · have hu := allocOrStash_get_ne needed k attr stash nid hj
    exact (h j).imp (fun ha => hu.1.trans ha) (fun hs => hu.2.trans hs)

/-- Folding the per-key step over any key list preserves exclusivity. -/
theorem foldl_processKey_excl (needed : SKey → Bool) (L : List SKey) :
    ∀ (st : AttrMap × AttrMap × Nat), (∀ j, ExclAt st.1 st.2.1 j) →
      ∀ j, ExclAt (L.foldl (processKey needed) st).1
        (L.foldl (processKey needed) st).2.1 j := by
  induction L with
  | nil => intro st h j; exact h j
  | cons k L ih =>
    intro st h j
    rw [List.foldl_cons]
    exact ih _ (allocOrStash_excl (needed k) k st.1 st.2.1 st.2.2 h) j

/-- A single `setGeometry` call preserves the exclusivity invariant. -/
theorem setGeometryBuffers_inv (p : Bool) (needed : SKey → Bool) (s : BufState)
    (h : BufInv s) : BufInv (setGeometryBuffers p needed s) := by
  obtain ⟨live, stash, nid⟩ := s
  cases p with
  | true =>
    exact fun j => foldl_processKey_excl needed
      ([SKey.index, SKey.uv, SKey.color].filter (fun k => needed k))
      (AttrMap.empty, stash, nid) (fun i => Or.inl (by cases i <;> rfl)) j
  | false =>
    cases live with
    | none =>
      exact fun j => foldl_processKey_excl needed
        ([SKey.index, SKey.uv, SKey.color].filter (fun k => needed k))
        (AttrMap.empty, stash, nid) (fun i => Or.inl (by cases i <;> rfl)) j
    | some attr =>
      exact fun j => foldl_processKey_excl needed [SKey.index, SKey.color, SKey.uv]
        (attr, stash, nid) (fun i => h i) j

/-- C2: after every sequence of `setGeometry` calls (hence after each call
of any sequence), every stashable key (`index`, `color`, `uv`) is held by
at most one of the current mesh's geometry attributes and the
`bufferAttributeStash`, never both. -/
theorem stash_live_exclusive (calls : List (Bool × (SKey → Bool))) :
    BufInv (runSetGeometryCalls calls) := by
  have haux : ∀ (cs : List (Bool × (SKey → Bool))) (s : BufState), BufInv s →
      BufInv (cs.foldl (fun s c => setGeometryBuffers c.1 c.2 s) s) := by
    intro cs
    induction cs with
    | nil => intro s h; exact h
    | cons c cs ih =>
      intro s h
      rw [List.foldl_cons]
      exact ih _ (setGeometryBuffers_inv c.1 c.2 s h)
  exact haux calls BufState.start (fun j => Or.inl (by cases j <;> rfl))

/-- Once a key's live slot holds `b` with its stash slot empty, further
loop iterations (under a `needed` map that needs the key) keep it that
way. -/
theorem processKey_keeps_reused (needed : SKey → Bool) {k : SKey} {b : Nat}
    (hk : needed k = true) (st : AttrMap × AttrMap × Nat)
    (ha : st.1.get k = some b) (hs : st.2.1.get k = none) (j : SKey) :
    (processKey needed st j).1.get k = some b ∧
    (processKey needed st j).2.1.get k = none := by
  by_cases hj : k = j
  · subst hj
    simp [processKey, allocateUpdateOrStashBufferAttribute, hk, hs, ha]
  · have hu := allocOrStash_get_ne (needed j) j st.1 st.2.1 st.2.2 hj
    exact ⟨hu.1.trans ha, hu.2.trans hs⟩

theorem foldl_keeps_reused (needed : SKey → Bool) {k : SKey} {b : Nat}
    (hk : needed k = true) (L : List SKey) :
    ∀ (st : AttrMap × AttrMap × Nat), st.1.get k = some b → st.2.1.get k = none →
      (L.foldl (processKey needed) st).1.get k = some b ∧
      (L.foldl (processKey needed) st).2.1.get k = none := by
  induction L with
  | nil => intro st ha hs; exact ⟨ha, hs⟩
  | cons j L ih =>
    intro st ha hs
    rw [List.foldl_cons]
    have hp := processKey_keeps_reused needed hk st ha hs j
    exact ih _ hp.1 hp.2

/-- When the loop reaches a needed key whose stash slot holds `b`, the
stashed buffer moves to the live slot and the stash slot empties; the rest
of the loop keeps it there. -/
theorem foldl_reuses_stashed (needed : SKey → Bool) {k : SKey} {b : Nat}
    (hk : needed k = true) (L : List SKey) :
    ∀ (st : AttrMap × AttrMap × Nat), k ∈ L → st.2.1.get k = some b →
      (L.foldl (processKey needed) st).1.get k = some b ∧
      (L.foldl (processKey needed) st).2.1.get k = none := by
  induction L with
  | nil => intro st hmem; exact absurd hmem (List.not_mem_nil k)
  | cons j L ih =>
    intro st hmem hs
    rw [List.foldl_cons]
    by_cases hj : k = j
    · subst hj
      have hstep : (processKey needed st k).1.get k = some b ∧
          (processKey needed st k).2.1.get k = none := by
        simp [processKey, allocateUpdateOrStashBufferAttribute, hk, hs,
          AttrMap.get_set_self]
      exact foldl_keeps_reused needed hk L _ hstep.1 hstep.2
    · have hmem' : k ∈ L := by
        rcases List.mem_cons.mp hmem with h1 | h1
        · exact absurd h1 hj
        · exact h1
      have hu := allocOrStash_get_ne (needed j) j st.1 st.2.1 st.2.2 hj
      exact ih _ hmem' (hu.2.trans hs)

/-- Every stashable key is a member of the update-branch loop order. -/
theorem skey_mem_updateOrder (k : SKey) : k ∈ [SKey.index, SKey.color, SKey.uv] := by
  cases k <;> simp

/-- Every needed stashable key is visited by the fresh-mesh branch loop. -/
theorem skey_mem_freshOrder (needed : SKey → Bool) (k : SKey) (hk : needed k = true) :
    k ∈ ([SKey.index, SKey.uv, SKey.color].filter (fun j => needed j)) := by
  rw [List.mem_filter]
  exact ⟨by cases k <;> simp, hk⟩

/-- C3: (i) on any viewer state with an existing current mesh, a
`setGeometry` call that needs a stashable key for which a stashed buffer
exists moves exactly that stashed buffer back to the live geometry — no
new buffer object is allocated for that key, the live slot ending at the
stashed identity and the stash slot emptying; (ii) the buffer-allocation
count after `N ≥ 1` identical on/off toggles of a scalar field equals the
count after one toggle. -/
theorem stashed_reuse_and_alloc_count :
    (∀ (s : BufState) (preserve : Bool) (needed : SKey → Bool) (k : SKey) (b : Nat),
      s.live.isSome = true → s.stash.get k = some b → needed k = true →
        ((setGeometryBuffers preserve needed s).live.getD AttrMap.empty).get k = some b ∧
        (setGeometryBuffers preserve needed s).stash.get k = none) ∧
    (∀ N : Nat, 1 ≤ N →
      (toggleCycle^[N] initialViewerBufState).nextId =
        (toggleCycle^[1] initialViewerBufState).nextId) := by
  constructor
  · intro s preserve needed k b hlive hstash hneed
    obtain ⟨live, stash, nid⟩ := s
    cases preserve with
    | true =>
      exact foldl_reuses_stashed needed hneed
        ([SKey.index, SKey.uv, SKey.color].filter (fun j => needed j))
        (AttrMap.empty, stash, nid) (skey_mem_freshOrder needed k hneed) hstash
    | false =>
      cases live with
      | none => exact Bool.noConfusion hlive
      | some attr =>
        exact foldl_reuses_stashed needed hneed [SKey.index, SKey.color, SKey.uv]
          (attr, stash, nid) (skey_mem_updateOrder k) hstash
  · have hfix : toggleCycle (toggleCycle initialViewerBufState) =
        toggleCycle initialViewerBufState := by decide
    have haux : ∀ n : Nat, toggleCycle^[n] (toggleCycle initialViewerBufState) =
        toggleCycle initialViewerBufState := by
      intro n
      induction n with
      | zero => rfl
      | succ n ih => rw [Function.iterate_succ_apply, hfix, ih]
    intro N hN
    obtain ⟨n, rfl⟩ := Nat.exists_eq_add_of_le hN
    rw [Nat.add_comm, Function.iterate_succ_apply, haux n, Function.iterate_one]

/-- Witness for C3 at a concrete state: a viewer with a live index buffer
`0`, a stashed color buffer `1` and two allocations so far reuses the
stashed buffer when the scalar field is toggled back on, and three toggle
cycles end with the same allocation count as one. -/
theorem stashed_reuse_and_alloc_count_witness :
    (((setGeometryBuffers false scalarOnNeeded
        ⟨some ⟨some 0, none, none⟩, ⟨none, some 1, none⟩, 2⟩).live.getD
          AttrMap.empty).get SKey.color = some 1 ∧
      (setGeometryBuffers false scalarOnNeeded
        ⟨some ⟨some 0, none, none⟩, ⟨none, some 1, none⟩, 2⟩).stash.get SKey.color = none) ∧
    (toggleCycle^[3] initialViewerBufState).nextId =
      (toggleCycle^[1] initialViewerBufState).nextId :=
  ⟨stashed_reuse_and_alloc_count.1 ⟨some ⟨some 0, none, none⟩, ⟨none, some 1, none⟩, 2⟩
      false scalarOnNeeded SKey.color 1 rfl rfl rfl,
    stashed_reuse_and_alloc_count.2 3 (by decide)⟩

/-! ## replicateAttributesPerTriCorner lemmas -/

/-- In-bounds gathering succeeds and preserves the index count. -/
theorem gather_total (l : List α) (idxs : List Nat) (h : ∀ i ∈ idxs, i < l.length) :
    ∃ g, gather l idxs = some g ∧ g.length = idxs.length := by
  induction idxs with
  | nil => exact ⟨[], rfl, rfl⟩
  | cons i is ih =>
    obtain ⟨g, hg, hlen⟩ := ih (fun j hj => h j (List.mem_cons_of_mem _ hj))
    have hlt : i < l.length := h i (List.mem_cons_self _ _)
    obtain ⟨x, hx⟩ : ∃ x, l[i]? = some x := ⟨_, List.getElem?_eq_getElem hlt⟩
    refine ⟨x :: g, ?_, by simp [hlen]⟩
    simp [gather, hx, hg]

/-- In-bounds gathering of every tagged attribute succeeds, entrywise. -/
theorem gatherAttrs_spec (idxs : List Nat) (l : List (String × List α))
    (h : ∀ kv ∈ l, ∀ i ∈ idxs, i < kv.2.length) :
    ∃ gl, gatherAttrs idxs l = some gl ∧
      List.Forall₂ (fun kv kv2 => kv2.1 = kv.1 ∧ gather kv.2 idxs = some kv2.2 ∧
        kv2.2.length = idxs.length) l gl := by
  induction l with
  | nil => exact ⟨[], rfl, List.Forall₂.nil⟩
  | cons kv rest ih =>
    obtain ⟨gl, hgl, hf⟩ := ih (fun kv2 hkv2 => h kv2 (List.mem_cons_of_mem _ hkv2))
    obtain ⟨g, hg, hglen⟩ := gather_total kv.2 idxs (h kv (List.mem_cons_self _ _))
    refine ⟨(kv.1, g) :: gl, ?_, List.Forall₂.cons ⟨rfl, hg, hglen⟩ hf⟩
    simp [gatherAttrs, hg, hgl]

/-- `np.repeat(c, 3, axis=0)` triples the length. -/
theorem length_flatMap_triple (c : List α) :
    (c.flatMap (fun x => [x, x, x])).length = 3 * c.length := by
  induction c with
  | nil => rfl
  | cons x c ih =>
    simp only [List.flatMap_cons, List.length_append, ih, List.length_cons,
      List.length_nil]
    omega

/-- C4: on a triangle-mesh attribute dict whose raveled index array has
length `3F` (indices in bounds for every per-vertex attribute and for the
index array itself) and whose per-face color array has length `F`,
`replicateAttributesPerTriCorner` with `perTriColor=True` succeeds,
replaces `index` by the sequential identity array `0, …, 3F-1`, replicates
`color` exactly three times per face (`3F` entries), and gathers every
other attribute by the old index into exactly `3F` corner entries. -/
theorem replicate_per_tri_corner {α : Type} (attr : AttrDict α) (F : Nat) (c : List α)
    (hidx : attr.index.length = 3 * F)
    (hc : attr.color = some c) (hcF : c.length = F)
    (hothers : ∀ kv ∈ attr.others, ∀ i ∈ attr.index, i < kv.2.length)
    (hself : ∀ i ∈ attr.index, i < attr.index.length) :
    ∃ out, replicateAttributesPerTriCorner attr true = some out ∧
      out.index = List.range (3 * F) ∧
      out.color = some (c.flatMap (fun x => [x, x, x])) ∧
      (c.flatMap (fun x => [x, x, x])).length = 3 * F ∧
      List.Forall₂ (fun kv kv2 => kv2.1 = kv.1 ∧ gather kv.2 attr.index = some kv2.2 ∧
        kv2.2.length = 3 * F) attr.others out.others := by
  obtain ⟨gl, hgl, hf⟩ := gatherAttrs_spec attr.index attr.others hothers
  obtain ⟨gi, hgi, _⟩ := gather_total attr.index attr.index hself
  refine ⟨⟨List.range attr.index.length, some (c.flatMap (fun x => [x, x, x])), gl⟩,
    ?_, ?_, rfl, ?_, ?_⟩
  · simp only [replicateAttributesPerTriCorner, hgl, hgi, hc]
  · simp [hidx]
  · rw [length_flatMap_triple, hcF]
  · exact hf.imp (fun kv kv2 hkv => ⟨hkv.1, hkv.2.1, hkv.2.2.trans hidx⟩)

/-- Witness for C4 on a one-triangle mesh (`F = 1`): index `[0, 1, 2]`,
per-face color `[7]`, one vertex attribute of three entries. -/
theorem replicate_per_tri_corner_witness :
    ∃ out,
      replicateAttributesPerTriCorner
        (⟨[0, 1, 2], some [7], [("position", [10, 20, 30])]⟩ : AttrDict Nat) true =
        some out ∧
      out.index = List.range (3 * 1) ∧
      out.color = some (([7] : List Nat).flatMap (fun x => [x, x, x])) ∧
      (([7] : List Nat).flatMap (fun x => [x, x, x])).length = 3 * 1 ∧
      List.Forall₂ (fun kv kv2 => kv2.1 = kv.1 ∧ gather kv.2 [0, 1, 2] = some kv2.2 ∧
        kv2.2.length = 3 * 1) [("position", [10, 20, 30])] out.others :=
  replicate_per_tri_corner
    (⟨[0, 1, 2], some [7], [("position", [10, 20, 30])]⟩ : AttrDict Nat) 1 [7]
    rfl rfl rfl (by decide) (by decide)

/-! ## TextureMap lemmas -/

/-- The padded side accommodates both image dimensions. -/
theorem paddedSide_ge (h w : Nat) (p2 : Bool) :
    h ≤ paddedSide h w p2 ∧ w ≤ paddedSide h w p2 := by
  cases p2 with
  | false => exact ⟨Nat.le_max_right w h, Nat.le_max_left w h⟩
  | true =>
    have hle := Nat.le_pow_clog (b := 2) one_lt_two (max w h)
    exact ⟨le_trans (Nat.le_max_right w h) hle, le_trans (Nat.le_max_left w h) hle⟩

/-- The padded image has `s` rows. -/
theorem padTex_length (tex : List (List Pixel)) (s : Nat) (hh : texHeight tex ≤ s) :
    (padTex tex s).length = s := by
  simp only [padTex, List.length_append, List.length_replicate, List.length_map]
  simp only [texHeight] at hh ⊢
  omega

/-- Every padded row has `s` entries. -/
theorem padTex_rows (tex : List (List Pixel)) (s : Nat)
    (hw : ∀ row ∈ tex, row.length = texWidth tex) (hwle : texWidth tex ≤ s) :
    ∀ row ∈ padTex tex s, row.length = s := by
  intro row hrow
  simp only [padTex] at hrow
  rcases List.mem_append.mp hrow with hmem | hmem
  · rw [List.eq_of_mem_replicate hmem, List.length_replicate]
  · obtain ⟨row0, hrow0, rfl⟩ := List.mem_map.mp hmem
    rw [List.length_append, List.length_replicate, hw row0 hrow0]
    omega

/-- A row of the top padding is all border pixels. -/
theorem padTex_getD_top (tex : List (List Pixel)) (s i : Nat)
    (hcase : i < s - texHeight tex) :
    (padTex tex s).getD i [] = List.replicate s borderPix := by
  rw [List.getD_eq_getElem?_getD (padTex tex s) i []]
  simp only [padTex]
  rw [List.getElem?_append_left (by simpa using hcase), List.getElem?_replicate,
    if_pos hcase]
  rfl

/-- A row below the top padding is the original row padded at the right. -/
theorem padTex_getD_body (tex : List (List Pixel)) (s i : Nat)
    (hh : texHeight tex ≤ s) (hcase : s - texHeight tex ≤ i) (hi : i < s) :
    (padTex tex s).getD i [] =
      tex.getD (i - (s - texHeight tex)) [] ++
        List.replicate (s - texWidth tex) borderPix := by
  have hi2 : i - (s - texHeight tex) < tex.length := by
    simp only [texHeight] at hh hcase ⊢
    omega
  obtain ⟨row, hrow⟩ : ∃ row, tex[i - (s - texHeight tex)]? = some row :=
    ⟨_, List.getElem?_eq_getElem hi2⟩
  rw [List.getD_eq_getElem?_getD (padTex tex s) i []]
  simp only [padTex]
  rw [List.getElem?_append_right (by simpa using hcase), List.length_replicate,
    List.getElem?_map, hrow,
    List.getD_eq_getElem?_getD tex (i - (s - texHeight tex)) [], hrow]
  rfl

/-- Pointwise contents of the padded image: the original pixels sit in the
rows with index `≥ s - h` at columns `< w` (the first `s - h` rows are the
prepended top padding, the last `s - w` columns the appended right
padding); everything else is the constant border pixel. -/
theorem padTex_getD (tex : List (List Pixel)) (s i j : Nat)
    (hw : ∀ row ∈ tex, row.length = texWidth tex)
    (hh : texHeight tex ≤ s) (hi : i < s) (hj : j < s) :
    ((padTex tex s).getD i []).getD j borderPix =
      if s - texHeight tex ≤ i ∧ j < texWidth tex then
        (tex.getD (i - (s - texHeight tex)) []).getD j borderPix
      else borderPix := by
  by_cases hcase : i < s - texHeight tex
  · rw [padTex_getD_top tex s i hcase,
      List.getD_eq_getElem?_getD (List.replicate s borderPix) j borderPix,
      List.getElem?_replicate, if_pos hj, if_neg (by omega)]
    rfl
  · push_neg at hcase
    have hi2 : i - (s - texHeight tex) < tex.length := by
      simp only [texHeight] at hh hcase ⊢
      omega
    obtain ⟨row, hrow⟩ : ∃ row, tex[i - (s - texHeight tex)]? = some row :=
      ⟨_, List.getElem?_eq_getElem hi2⟩
    have hgetd : tex.getD (i - (s - texHeight tex)) [] = row := by
      rw [List.getD_eq_getElem?_getD tex (i - (s - texHeight tex)) [], hrow]
      rfl
    have hrl : row.length = texWidth tex := hw row (List.getElem?_mem hrow)
    rw [padTex_getD_body tex s i hh hcase hi, hgetd]
    by_cases hjw : j < texWidth tex
    · rw [List.getD_eq_getElem?_getD
          (row ++ List.replicate (s - texWidth tex) borderPix) j borderPix,
        List.getElem?_append_left (by rw [hrl]; exact hjw), if_pos ⟨hcase, hjw⟩,
        List.getD_eq_getElem?_getD row j borderPix]
    · rw [List.getD_eq_getElem?_getD
          (row ++ List.replicate (s - texWidth tex) borderPix) j borderPix,
        List.getElem?_append_right (by rw [hrl]; omega), List.getElem?_replicate,
        if_pos (by rw [hrl]; omega), if_neg (by omega)]
      rfl

/-- `2^ceil(log2 5) = 8`. -/
theorem clog_two_five : Nat.clog 2 5 = 3 := by
  rw [Nat.clog_of_two_le (by norm_num) (by norm_num)]
  norm_num
  rw [Nat.clog_of_two_le (by norm_num) (by norm_num)]
  norm_num
  rw [Nat.clog_eq_one (by norm_num) (by norm_num)]

/-- C8: for an image of height `h` and width `w` (uniform rows), the padded
square side is `s = max(w, h)` without `powerOfTwo` and
`s = 2^ceil(log2(max(w, h)))` with it; the padded image is `s × s` with
padding added on the top and right only (original pixels at rows
`≥ s - h`, columns `< w`; border pixels elsewhere); the stored UVs are the
input UVs scaled componentwise by `(w / s, h / s)`; and in particular for
`h = 3, w = 5` without power-of-two, `s = 5` (8 with it) and UV `(1, 1)`
maps to `(1.0, 0.6)`. -/
theorem textureMap_square_padding (uv : List (ℚ × ℚ)) (tex : List (List Pixel))
    (p2 : Bool) (hw : ∀ row ∈ tex, row.length = texWidth tex) :
    (paddedSide (texHeight tex) (texWidth tex) false =
        max (texWidth tex) (texHeight tex) ∧
      paddedSide (texHeight tex) (texWidth tex) true =
        2 ^ Nat.clog 2 (max (texWidth tex) (texHeight tex))) ∧
    (TextureMap.init uv tex false p2).dataTex.length =
      paddedSide (texHeight tex) (texWidth tex) p2 ∧
    (∀ row ∈ (TextureMap.init uv tex false p2).dataTex,
      row.length = paddedSide (texHeight tex) (texWidth tex) p2) ∧
    (∀ i j, i < paddedSide (texHeight tex) (texWidth tex) p2 →
      j < paddedSide (texHeight tex) (texWidth tex) p2 →
      (((TextureMap.init uv tex false p2).dataTex.getD i []).getD j borderPix =
        if paddedSide (texHeight tex) (texWidth tex) p2 - texHeight tex ≤ i ∧
            j < texWidth tex then
          (tex.getD (i - (paddedSide (texHeight tex) (texWidth tex) p2 - texHeight tex))
            []).getD j borderPix
        else borderPix)) ∧
    (TextureMap.init uv tex false p2).uv =
      uv.map (fun q =>
        (q.1 * ((texWidth tex : ℚ) / (paddedSide (texHeight tex) (texWidth tex) p2 : ℚ)),
         q.2 * ((texHeight tex : ℚ) / (paddedSide (texHeight tex) (texWidth tex) p2 : ℚ)))) ∧
    paddedSide 3 5 false = 5 ∧
    paddedSide 3 5 true = 8 ∧
    (TextureMap.init [(1, 1)]
      (List.replicate 3 (List.replicate 5 ([0, 0, 0, 0] : Pixel))) false false).uv =
      [(1, 3 / 5)] := by
  obtain ⟨hh, hwle⟩ := paddedSide_ge (texHeight tex) (texWidth tex) p2
  refine ⟨⟨rfl, rfl⟩, ?_, ?_, ?_, rfl, rfl, ?_, ?_⟩
  · exact padTex_length tex _ hh
  · exact padTex_rows tex _ hw hwle
  · intro i j hi hj
    exact padTex_getD tex _ i j hw hh hi hj
  · simp [paddedSide, clog_two_five]
  · norm_num [TextureMap.init, paddedSide, texHeight, texWidth,
      List.replicate_succ, Nat.max_def]

/-- Witness for C8 on the `3 × 5` image with power-of-two padding: the
padded side is `8` and the original pixels occupy rows `≥ 5`, columns
`< 5`. -/
theorem textureMap_square_padding_witness :
    (∀ row ∈ List.replicate 3 (List.replicate 5 ([0, 0, 0, 0] : Pixel)),
      row.length = texWidth (List.replicate 3 (List.replicate 5 ([0, 0, 0, 0] : Pixel)))) ∧
    (TextureMap.init [(1, 1)]
      (List.replicate 3 (List.replicate 5 ([0, 0, 0, 0] : Pixel))) false true).dataTex.length =
      paddedSide
        (texHeight (List.replicate 3 (List.replicate 5 ([0, 0, 0, 0] : Pixel))))
        (texWidth (List.replicate 3 (List.replicate 5 ([0, 0, 0, 0] : Pixel)))) true ∧
    paddedSide 3 5 true = 8 :=
  have h := textureMap_square_padding [(1, 1)]
    (List.replicate 3 (List.replicate 5 ([0, 0, 0, 0] : Pixel))) true (by decide)
  ⟨by decide, h.2.1, h.2.2.2.2.2.2.1⟩

/-! ## Ghost-mesh lifecycle lemmas -/

/-- An event that is not a buffer close never occurs among buffer closes. -/
theorem count_map_closeBuf_ne (ev : Ev) (l : List Nat) (h : ∀ b, ev ≠ Ev.closeBuf b) :
    (l.map Ev.closeBuf).count ev = 0 := by
  rw [List.count_eq_zero]
  intro hmem
  obtain ⟨b, _, hbe⟩ := List.mem_map.mp hmem
  exact h b hbe.symm

/-- Buffer-close events count buffer identities. -/
theorem count_map_closeBuf (b : Nat) (l : List Nat) :
    (l.map Ev.closeBuf).count (Ev.closeBuf b) = l.count b := by
  induction l with
  | nil => rfl
  | cons a l ih => simp [List.count_cons, ih]

theorem meshCleanup_count_closeMesh (wf pf : Option Nat) (m : GMesh) (x : Nat) :
    (meshCleanupEvents wf pf m).count (Ev.closeMesh x) = if m.mid = x then 1 else 0 := by
  unfold meshCleanupEvents
  split <;>
    simp [List.count_append, List.count_cons,
      count_map_closeBuf_ne (Ev.closeMesh x) _ (fun b => by simp)]

theorem meshCleanup_count_disposeGeom (wf pf : Option Nat) (m : GMesh) (x : Nat)
    (hns : wf ≠ some m.mid ∧ pf ≠ some m.mid) :
    (meshCleanupEvents wf pf m).count (Ev.disposeGeom x) = if m.mid = x then 1 else 0 := by
  unfold meshCleanupEvents
  rw [if_pos hns]
  simp [List.count_append, List.count_cons,
    count_map_closeBuf_ne (Ev.disposeGeom x) _ (fun b => by simp)]

theorem meshCleanup_count_closeGeom (wf pf : Option Nat) (m : GMesh) (x : Nat)
    (hns : wf ≠ some m.mid ∧ pf ≠ some m.mid) :
    (meshCleanupEvents wf pf m).count (Ev.closeGeom x) = if m.mid = x then 1 else 0 := by
  unfold meshCleanupEvents
  rw [if_pos hns]
  simp [List.count_append, List.count_cons,
    count_map_closeBuf_ne (Ev.closeGeom x) _ (fun b => by simp)]

theorem meshCleanup_count_closeBuf (wf pf : Option Nat) (m : GMesh) (b : Nat)
    (hns : wf ≠ some m.mid ∧ pf ≠ some m.mid) :
    (meshCleanupEvents wf pf m).count (Ev.closeBuf b) = m.geomAttrs.count b := by
  unfold meshCleanupEvents
  rw [if_pos hns]
  simp [List.count_append, List.count_cons, count_map_closeBuf]

/-- A mesh group whose per-mesh cleanup emits an event once for one member
and never for the others emits it exactly once overall. -/
theorem count_flatMap_eq_one (f : GMesh → List Ev) (ev : Ev) (L : List GMesh)
    (g : GMesh) (hg : g ∈ L) (hnd : L.Nodup)
    (hone : (f g).count ev = 1) (hzero : ∀ m ∈ L, m ≠ g → (f m).count ev = 0) :
    (L.flatMap f).count ev = 1 := by
  induction L with
  | nil => cases hg
  | cons m L ih =>
    rw [List.flatMap_cons, List.count_append]
    rcases List.mem_cons.mp hg with rfl | hg2
    · rw [hone]
      have hz : (L.flatMap f).count ev = 0 := by
        rw [List.count_eq_zero]
        intro hmem
        obtain ⟨m2, hm2, hmem2⟩ := List.mem_flatMap.mp hmem
        have hne : m2 ≠ g := fun he => (List.nodup_cons.mp hnd).1 (he ▸ hm2)
        have hz2 := hzero m2 (List.mem_cons_of_mem _ hm2) hne
        rw [List.count_eq_zero] at hz2
        exact hz2 hmem2
      rw [hz]
    · have hne : m ≠ g := fun he => (List.nodup_cons.mp hnd).1 (he ▸ hg2)
      rw [hzero m (List.mem_cons_self _ _) hne, Nat.zero_add]
      exact ih hg2 (List.nodup_cons.mp hnd).2
        (fun m2 hm2 hne2 => hzero m2 (List.mem_cons_of_mem _ hm2) hne2)

/-- Purging a well-formed ghost group closes each ghost's mesh, geometry
and buffers exactly once. -/
theorem cleanMeshes_counts (wf pf : Option Nat) (L : List GMesh) (g : GMesh)
    (hg : g ∈ L)
    (hnodmid : (L.map GMesh.mid).Nodup)
    (hnodbuf : (L.flatMap GMesh.geomAttrs).Nodup)
    (hns : ∀ m ∈ L, wf ≠ some m.mid ∧ pf ≠ some m.mid) :
    (cleanMeshesEvents wf pf L).count (Ev.closeMesh g.mid) = 1 ∧
    (cleanMeshesEvents wf pf L).count (Ev.disposeGeom g.mid) = 1 ∧
    (cleanMeshesEvents wf pf L).count (Ev.closeGeom g.mid) = 1 ∧
    ∀ b ∈ g.geomAttrs, (cleanMeshesEvents wf pf L).count (Ev.closeBuf b) = 1 := by
  have hndL : L.Nodup := hnodmid.of_map _
  have hmidinj : ∀ m ∈ L, m.mid = g.mid → m = g := fun m hm hmid =>
    List.inj_on_of_nodup_map hnodmid hm hg hmid
  obtain ⟨hattrnd, hpair⟩ := List.nodup_flatMap.mp hnodbuf
  have hdisj : ∀ m ∈ L, m ≠ g → m.geomAttrs.Disjoint g.geomAttrs := by
    intro m hm hne
    exact List.Pairwise.forall (fun a b hab => hab.symm) hpair hm hg hne
  refine ⟨?_, ?_, ?_, ?_⟩
  · exact count_flatMap_eq_one _ _ L g hg hndL
      (by rw [meshCleanup_count_closeMesh, if_pos rfl])
      (fun m hm hne => by
        rw [meshCleanup_count_closeMesh, if_neg (fun he => hne (hmidinj m hm he))])
  · exact count_flatMap_eq_one _ _ L g hg hndL
      (by rw [meshCleanup_count_disposeGeom _ _ _ _ (hns g hg), if_pos rfl])
      (fun m hm hne => by
        rw [meshCleanup_count_disposeGeom _ _ _ _ (hns m hm),
          if_neg (fun he => hne (hmidinj m hm he))])
  · exact count_flatMap_eq_one _ _ L g hg hndL
      (by rw [meshCleanup_count_closeGeom _ _ _ _ (hns g hg), if_pos rfl])
      (fun m hm hne => by
        rw [meshCleanup_count_closeGeom _ _ _ _ (hns m hm),
          if_neg (fun he => hne (hmidinj m hm he))])
  · intro b hb
    exact count_flatMap_eq_one _ _ L g hg hndL
      (by rw [meshCleanup_count_closeBuf _ _ _ _ (hns g hg)]
          exact List.count_eq_one_of_mem (hattrnd g hg) hb)
      (fun m hm hne => by
        rw [meshCleanup_count_closeBuf _ _ _ _ (hns m hm), List.count_eq_zero]
        exact fun hbm => hdisj m hm hne hbm hb)

/-- The ghost/purge composition: a `preserveExisting=True` update moves the
current mesh (and any displayed vector-field mesh) into the ghost group
without emitting release events, and the immediately following
`preserveExisting=False` update empties the ghost group, emitting exactly
the cleanup events of the accumulated ghosts. -/
theorem setGeometryGhost_preserve_then_clean (s : GhostView) (m : GMesh)
    (nm1 nm2 : GMesh) (nvf1 nvf2 : Option GMesh) (hm : s.currMesh = some m) :
    (setGeometryGhost false nm2 nvf2 (setGeometryGhost true nm1 nvf1 s)).ghostMeshes = [] ∧
    (setGeometryGhost false nm2 nvf2 (setGeometryGhost true nm1 nvf1 s)).events =
      s.events ++ cleanMeshesEvents s.wireframeMesh s.pointsMesh
        (s.ghostMeshes ++ ghostedMeshes s m) := by
  obtain ⟨cur, vfm, vfin, wfm, pfm, gh, ev⟩ := s
  dsimp only at hm
  subst hm
  cases vfm <;> cases vfin <;> cases nvf1 <;> cases nvf2 <;>
    simp [setGeometryGhost, ghostPhase, ghostedMeshes, cleanMeshesEvents,
      List.append_assoc]

/-- C7: an update with `preserveExisting=True` (which ghosts the current
mesh, and the displayed vector-field mesh with it) followed immediately by
an update with `preserveExisting=False` leaves the ghost group empty and
emits exactly the cleanup events of every previously accumulated ghost; on
a well-formed scene (distinct mesh identities, distinct buffer
identities, no ghost aliasing the wireframe/points meshes) each such ghost
is closed exactly once, its geometry disposed and closed exactly once, and
each of its attribute buffers closed exactly once. -/
theorem ghost_purge_disposes_once (s : GhostView) (m : GMesh) (nm1 nm2 : GMesh)
    (nvf1 nvf2 : Option GMesh)
    (hm : s.currMesh = some m)
    (hnodmid : ((s.ghostMeshes ++ ghostedMeshes s m).map GMesh.mid).Nodup)
    (hnodbuf : ((s.ghostMeshes ++ ghostedMeshes s m).flatMap GMesh.geomAttrs).Nodup)
    (hns : ∀ g ∈ s.ghostMeshes ++ ghostedMeshes s m,
      s.wireframeMesh ≠ some g.mid ∧ s.pointsMesh ≠ some g.mid) :
    (setGeometryGhost false nm2 nvf2 (setGeometryGhost true nm1 nvf1 s)).ghostMeshes = [] ∧
    (setGeometryGhost false nm2 nvf2 (setGeometryGhost true nm1 nvf1 s)).events =
      s.events ++ cleanMeshesEvents s.wireframeMesh s.pointsMesh
        (s.ghostMeshes ++ ghostedMeshes s m) ∧
    ∀ g ∈ s.ghostMeshes ++ ghostedMeshes s m,
      (cleanMeshesEvents s.wireframeMesh s.pointsMesh
        (s.ghostMeshes ++ ghostedMeshes s m)).count (Ev.closeMesh g.mid) = 1 ∧
      (cleanMeshesEvents s.wireframeMesh s.pointsMesh
        (s.ghostMeshes ++ ghostedMeshes s m)).count (Ev.disposeGeom g.mid) = 1 ∧
      (cleanMeshesEvents s.wireframeMesh s.pointsMesh
        (s.ghostMeshes ++ ghostedMeshes s m)).count (Ev.closeGeom g.mid) = 1 ∧
      ∀ b ∈ g.geomAttrs,
        (cleanMeshesEvents s.wireframeMesh s.pointsMesh
          (s.ghostMeshes ++ ghostedMeshes s m)).count (Ev.closeBuf b) = 1 := by
  obtain ⟨h1, h2⟩ := setGeometryGhost_preserve_then_clean s m nm1 nm2 nvf1 nvf2 hm
  exact ⟨h1, h2, fun g hg =>
    cleanMeshes_counts s.wireframeMesh s.pointsMesh _ g hg hnodmid hnodbuf hns⟩

/-- Witness for C7: a viewer showing mesh `0` (one buffer `10`) with one
prior ghost `1` (buffer `11`); ghosting then purging empties the ghost
group and closes ghost `1`'s mesh exactly once. -/
theorem ghost_purge_disposes_once_witness :
    (setGeometryGhost false ⟨3, [13]⟩ none
      (setGeometryGhost true ⟨2, [12]⟩ none
        ⟨some ⟨0, [10]⟩, none, false, none, none, [⟨1, [11]⟩], []⟩)).ghostMeshes = [] ∧
    (cleanMeshesEvents none none
      ([⟨1, [11]⟩] ++
        ghostedMeshes ⟨some ⟨0, [10]⟩, none, false, none, none, [⟨1, [11]⟩], []⟩
          ⟨0, [10]⟩)).count (Ev.closeMesh 1) = 1 :=
  have h := ghost_purge_disposes_once
    ⟨some ⟨0, [10]⟩, none, false, none, none, [⟨1, [11]⟩], []⟩
    ⟨0, [10]⟩ ⟨2, [12]⟩ ⟨3, [13]⟩ none none rfl (by decide) (by decide) (by decide)
  ⟨h.1, (h.2.2 ⟨1, [11]⟩ (by decide)).1⟩

end TriMeshViewer
